import Mathlib

/-!
Verification of the 2k_spark model-lifecycle subsystem.

The definitions below are a shallow embedding, written in Lean, of the
Python code under `backend/core`:

* `Registry` embeds `backend/core/models/registry.py`
  (`ModelRegistry` and `ScoreModelRegistry`);
* `Tuner` embeds `backend/core/optimization/tuner.py` and the
  champion/score bookkeeping of
  `backend/core/optimization/bayesian_optimizer.py`;
* `Predict` embeds the `predict` methods of
  `backend/core/models/winner_prediction.py` and
  `backend/core/models/score_prediction.py`;
* `Features` embeds `backend/core/models/feature_engineering.py`.

Python floats are modelled as rationals (`ℚ`), with `WithBot ℚ` /
`WithTop ℚ` supplying the `float('-inf')` / `float('inf')` sentinels the
code uses.  Python dicts keyed by strings are modelled as association
lists, with `List.lookup` playing the role of `dict.get`.  The ambient
wall clock consulted by `datetime.now()` is made an explicit parameter.
-/

set_option autoImplicit false

namespace Registry

/-- One registry entry (a `model_info` dict).  The comparator fields are
optional because the Python code reads them with `dict.get` defaults:
`accuracy` defaults to `0`, `total_score_mae` to `float('inf')`. -/
structure ModelInfo where
  model_id : String
  accuracy : Option ℚ
  total_score_mae : Option ℚ
  deriving DecidableEq, Repr

/-- Which registry flavour is in play: `ModelRegistry` (winner, max
accuracy) or `ScoreModelRegistry` (score, min MAE). -/
inductive RegKind where
  | winner
  | score
  deriving DecidableEq, Repr

/-- The in-memory registry document: the dict
with keys `models` and `best_model_id`. -/
structure RegistryState where
  models : List ModelInfo
  best_model_id : Option String
  deriving DecidableEq, Repr

/-- The fresh document built when the store is missing or unreadable. -/
def emptyRegistry : RegistryState := ⟨[], none⟩

/-- Comparator key of the winner registry: `m.get("accuracy", 0)`. -/
def accKey (m : ModelInfo) : ℚ := m.accuracy.getD 0

/-- Comparator key of the score registry:
`m.get("total_score_mae", float('inf'))`. -/
def maeKey (m : ModelInfo) : WithTop ℚ :=
  match m.total_score_mae with
  | some q => (q : WithTop ℚ)
  | none => ⊤

/-- Python `max(m :: ms, key)`: the first element attaining the maximal
key (a later element replaces the champion only on a strict increase). -/
def pyMaxBy {β : Type} [LinearOrder β] (key : ModelInfo → β)
    (m : ModelInfo) (ms : List ModelInfo) : ModelInfo :=
  ms.foldl (fun b x => if key b < key x then x else b) m

/-- Python `min(m :: ms, key)`: the first element attaining the minimal
key. -/
def pyMinBy {β : Type} [LinearOrder β] (key : ModelInfo → β)
    (m : ModelInfo) (ms : List ModelInfo) : ModelInfo :=
  ms.foldl (fun b x => if key x < key b then x else b) m

/-- The `_update_best_model` computation of both registry classes: the
new `best_model_id` as a function of the entry list.  An empty list
yields `None`; otherwise the winner registry takes the max-accuracy
entry and the score registry the min-MAE entry. -/
def update_best : RegKind → List ModelInfo → Option String
  | _, [] => none
  | .winner, m :: ms => some (pyMaxBy accKey m ms).model_id
  | .score, m :: ms => some (pyMinBy maeKey m ms).model_id

/-- The overwrite loop of `register_model`: replace the first entry
whose `model_id` matches, returning `none` when no entry matches. -/
def registerIntoList (info : ModelInfo) :
    List ModelInfo → Option (List ModelInfo)
  | [] => none
  | m :: rest =>
    if m.model_id = info.model_id then some (info :: rest)
    else (registerIntoList info rest).map (fun l => m :: l)

/-- `ModelRegistry.register_model`.  A falsy (empty) `model_id` is
rejected.  When an entry with the same `model_id` exists it is
overwritten in place and the method returns immediately (persisting,
modelled by the `Bool`); only when the entry is new does the code append
it and call `_update_best_model`. -/
def register_model (kind : RegKind) (st : RegistryState)
    (info : ModelInfo) : RegistryState × Bool :=
  if info.model_id = "" then (st, false)
  else
    match registerIntoList info st.models with
    | some ms2 => ({ st with models := ms2 }, true)
    | none =>
      let ms := st.models ++ [info]
      ({ models := ms, best_model_id := update_best kind ms }, true)

/-- `ModelRegistry.remove_model`: filter out entries with the given id;
if anything was removed, recompute the best model when it was the one
removed, and persist. -/
def remove_model (kind : RegKind) (st : RegistryState)
    (model_id : String) : RegistryState × Bool :=
  let ms := st.models.filter (fun m => m.model_id ≠ model_id)
  if ms.length < st.models.length then
    let best :=
      if st.best_model_id = some model_id then update_best kind ms
      else st.best_model_id
    (⟨ms, best⟩, true)
  else
    (⟨ms, st.best_model_id⟩, false)

/-- `ModelRegistry.get_model_info`: first entry with the given id. -/
def get_model_info (st : RegistryState) (model_id : String) :
    Option ModelInfo :=
  st.models.find? (fun m => m.model_id = model_id)

/-- `ModelRegistry.get_best_model_info`: the entry designated by
`best_model_id`, or `None` when that field is falsy. -/
def get_best_model_info (st : RegistryState) : Option ModelInfo :=
  match st.best_model_id with
  | none => none
  | some id => if id = "" then none else get_model_info st id

/-- `ModelRegistry.list_models`. -/
def list_models (st : RegistryState) : List ModelInfo :=
  st.models

/-- The three relevant conditions of the persisted store when
`_load_registry` runs: file absent, file present but undecodable
(`json.JSONDecodeError` / `UnicodeDecodeError`), or decoded to a
document. -/
inductive StoreState where
  | missing
  | unreadable
  | parsed (st : RegistryState)
  deriving DecidableEq, Repr

/-- `ModelRegistry._load_registry`: a missing or undecodable store
yields the fresh empty document. -/
def load_registry : StoreState → RegistryState
  | .missing => emptyRegistry
  | .unreadable => emptyRegistry
  | .parsed st => st

/-- A registry operation: `register_model` or `remove_model`. -/
inductive RegOp where
  | reg (info : ModelInfo)
  | rem (model_id : String)
  deriving DecidableEq, Repr

/-- Apply one operation, keeping the resulting state. -/
def applyOp (kind : RegKind) (st : RegistryState) : RegOp → RegistryState
  | .reg info => (register_model kind st info).1
  | .rem id => (remove_model kind st id).1

/-- Run a sequence of registry operations. -/
def runOps (kind : RegKind) (st : RegistryState) (ops : List RegOp) :
    RegistryState :=
  ops.foldl (applyOp kind) st

/-- The dangling-pointer invariant of claim C10: `best_model_id` is
`None` on an empty entry list, and otherwise names an entry that is
currently present. -/
def BestValid (st : RegistryState) : Prop :=
  (st.models = [] → st.best_model_id = none) ∧
  ∀ id, st.best_model_id = some id → ∃ m ∈ st.models, m.model_id = id

end Registry

namespace Registry

theorem pyMaxBy_mem {β : Type} [LinearOrder β] (key : ModelInfo → β)
    (ms : List ModelInfo) : ∀ m : ModelInfo, pyMaxBy key m ms ∈ m :: ms := by
  induction ms with
  | nil => intro m; simp [pyMaxBy]
  | cons a l ih =>
    intro m
    have e : pyMaxBy key m (a :: l)
        = pyMaxBy key (if key m < key a then a else m) l := rfl
    rw [e]
    rcases List.mem_cons.mp (ih (if key m < key a then a else m)) with h1 | h1
    · rw [h1]
      split
      · exact List.mem_cons_of_mem _ (List.mem_cons_self _ _)
      · exact List.mem_cons_self _ _
    · exact List.mem_cons_of_mem _ (List.mem_cons_of_mem _ h1)

theorem pyMaxBy_le {β : Type} [LinearOrder β] (key : ModelInfo → β)
    (ms : List ModelInfo) :
    ∀ m : ModelInfo, ∀ x ∈ m :: ms, key x ≤ key (pyMaxBy key m ms) := by
  induction ms with
  | nil =>
    intro m x hx
    rcases List.mem_cons.mp hx with rfl | h1
    · exact le_refl _
    · cases h1
  | cons a l ih =>
    intro m x hx
    have e : pyMaxBy key m (a :: l)
        = pyMaxBy key (if key m < key a then a else m) l := rfl
    rw [e]
    have hm : key m ≤ key (if key m < key a then a else m) := by
      split
      · exact le_of_lt (by assumption)
      · exact le_refl _
    have ha : key a ≤ key (if key m < key a then a else m) := by
      split
      · exact le_refl _
      · exact le_of_not_lt (by assumption)
    have hstep := ih (if key m < key a then a else m)
    rcases List.mem_cons.mp hx with rfl | h1
    · exact le_trans hm (hstep _ (List.mem_cons_self _ _))
    · rcases List.mem_cons.mp h1 with rfl | h2
      · exact le_trans ha (hstep _ (List.mem_cons_self _ _))
      · exact hstep x (List.mem_cons_of_mem _ h2)

theorem pyMinBy_mem {β : Type} [LinearOrder β] (key : ModelInfo → β)
    (ms : List ModelInfo) : ∀ m : ModelInfo, pyMinBy key m ms ∈ m :: ms := by
  induction ms with
  | nil => intro m; simp [pyMinBy]
  | cons a l ih =>
    intro m
    have e : pyMinBy key m (a :: l)
        = pyMinBy key (if key a < key m then a else m) l := rfl
    rw [e]
    rcases List.mem_cons.mp (ih (if key a < key m then a else m)) with h1 | h1
    · rw [h1]
      split
      · exact List.mem_cons_of_mem _ (List.mem_cons_self _ _)
      · exact List.mem_cons_self _ _
    · exact List.mem_cons_of_mem _ (List.mem_cons_of_mem _ h1)

theorem pyMinBy_le {β : Type} [LinearOrder β] (key : ModelInfo → β)
    (ms : List ModelInfo) :
    ∀ m : ModelInfo, ∀ x ∈ m :: ms, key (pyMinBy key m ms) ≤ key x := by
  induction ms with
  | nil =>
    intro m x hx
    rcases List.mem_cons.mp hx with rfl | h1
    · exact le_refl _
    · cases h1
  | cons a l ih =>
    intro m x hx
    have e : pyMinBy key m (a :: l)
        = pyMinBy key (if key a < key m then a else m) l := rfl
    rw [e]
    have hm : key (if key a < key m then a else m) ≤ key m := by
      split
      · exact le_of_lt (by assumption)
      · exact le_refl _
    have ha : key (if key a < key m then a else m) ≤ key a := by
      split
      · exact le_refl _
      · exact le_of_not_lt (by assumption)
    have hstep := ih (if key a < key m then a else m)
    rcases List.mem_cons.mp hx with rfl | h1
    · exact le_trans (hstep _ (List.mem_cons_self _ _)) hm
    · rcases List.mem_cons.mp h1 with rfl | h2
      · exact le_trans (hstep _ (List.mem_cons_self _ _)) ha
      · exact hstep x (List.mem_cons_of_mem _ h2)

theorem update_best_nil (kind : RegKind) : update_best kind [] = none := by
  cases kind <;> rfl

theorem update_best_mem (kind : RegKind) (ms : List ModelInfo)
    (h : ms ≠ []) : ∃ m ∈ ms, update_best kind ms = some m.model_id := by
  cases ms with
  | nil => exact absurd rfl h
  | cons a l =>
    cases kind
    · exact ⟨pyMaxBy accKey a l, pyMaxBy_mem accKey l a, rfl⟩
    · exact ⟨pyMinBy maeKey a l, pyMinBy_mem maeKey l a, rfl⟩

theorem update_best_some (kind : RegKind) (ms : List ModelInfo)
    (id : String) (h : update_best kind ms = some id) :
    ∃ m ∈ ms, m.model_id = id := by
  cases ms with
  | nil => rw [update_best_nil] at h; cases h
  | cons a l =>
    obtain ⟨m, hm, hup⟩ := update_best_mem kind (a :: l) (by simp)
    rw [hup] at h
    exact ⟨m, hm, Option.some.inj h⟩

theorem registerIntoList_none_iff (info : ModelInfo) (l : List ModelInfo) :
    registerIntoList info l = none ↔
      ∀ m ∈ l, m.model_id ≠ info.model_id := by
  induction l with
  | nil => simp [registerIntoList]
  | cons a t ih =>
    by_cases hc : a.model_id = info.model_id
    · simp [registerIntoList, hc]
    · simp [registerIntoList, hc, ih]

theorem registerIntoList_ids (info : ModelInfo) (l l2 : List ModelInfo)
    (h : registerIntoList info l = some l2) :
    l2.map (fun m => m.model_id) = l.map (fun m => m.model_id) := by
  induction l generalizing l2 with
  | nil => cases h
  | cons a t ih =>
    by_cases hc : a.model_id = info.model_id
    · simp only [registerIntoList, if_pos hc] at h
      cases h
      simp [hc]
    · simp only [registerIntoList, if_neg hc, Option.map_eq_some'] at h
      obtain ⟨t2, ht2, rfl⟩ := h
      simp [ih t2 ht2]

theorem registerIntoList_mem_info (info : ModelInfo) (l l2 : List ModelInfo)
    (h : registerIntoList info l = some l2) : info ∈ l2 := by
  induction l generalizing l2 with
  | nil => cases h
  | cons a t ih =>
    by_cases hc : a.model_id = info.model_id
    · simp only [registerIntoList, if_pos hc] at h
      cases h
      exact List.mem_cons_self _ _
    · simp only [registerIntoList, if_neg hc, Option.map_eq_some'] at h
      obtain ⟨t2, ht2, rfl⟩ := h
      exact List.mem_cons_of_mem _ (ih t2 ht2)

theorem registerIntoList_mem_iff (info : ModelInfo) (l l2 : List ModelInfo)
    (h : registerIntoList info l = some l2) (m : ModelInfo)
    (hm : m.model_id ≠ info.model_id) : m ∈ l2 ↔ m ∈ l := by
  induction l generalizing l2 with
  | nil => cases h
  | cons a t ih =>
    by_cases hc : a.model_id = info.model_id
    · simp only [registerIntoList, if_pos hc] at h
      cases h
      have hma : m ≠ info := fun he => hm (by rw [he])
      have hma2 : m ≠ a := fun he => hm (by rw [he, hc])
      simp [hma, hma2]
    · simp only [registerIntoList, if_neg hc, Option.map_eq_some'] at h
      obtain ⟨t2, ht2, rfl⟩ := h
      simp [ih t2 ht2]

theorem registerIntoList_subset (info : ModelInfo) (l l2 : List ModelInfo)
    (h : registerIntoList info l = some l2) (m : ModelInfo)
    (hm : m ∈ l2) : m = info ∨ m ∈ l := by
  induction l generalizing l2 with
  | nil => cases h
  | cons a t ih =>
    by_cases hc : a.model_id = info.model_id
    · simp only [registerIntoList, if_pos hc] at h
      cases h
      rcases List.mem_cons.mp hm with h1 | h1
      · exact Or.inl h1
      · exact Or.inr (List.mem_cons_of_mem _ h1)
    · simp only [registerIntoList, if_neg hc, Option.map_eq_some'] at h
      obtain ⟨t2, ht2, rfl⟩ := h
      rcases List.mem_cons.mp hm with h1 | h1
      · exact Or.inr (h1 ▸ List.mem_cons_self _ _)
      · rcases ih t2 ht2 h1 with h2 | h2
        · exact Or.inl h2
        · exact Or.inr (List.mem_cons_of_mem _ h2)

theorem find_first_of_pairwise (ms : List ModelInfo) (e : ModelInfo)
    (hid : ms.Pairwise (fun a b => a.model_id ≠ b.model_id))
    (he : e ∈ ms) :
    ms.find? (fun m => m.model_id = e.model_id) = some e := by
  induction ms with
  | nil => cases he
  | cons a t ih =>
    rcases List.mem_cons.mp he with rfl | ht
    · exact List.find?_cons_of_pos _ (by simp)
    · have ha : a.model_id ≠ e.model_id :=
        (List.pairwise_cons.mp hid).1 e ht
      rw [List.find?_cons_of_neg _ (by simp [ha])]
      exact ih (List.pairwise_cons.mp hid).2 ht

end Registry

namespace Registry

theorem register_model_preserves (kind : RegKind) (st : RegistryState)
    (info : ModelInfo) (h : BestValid st) :
    BestValid (register_model kind st info).1 := by
  unfold register_model
  by_cases h0 : info.model_id = ""
  · simpa [h0] using h
  · rw [if_neg h0]
    cases hreg : registerIntoList info st.models with
    | some ms2 =>
      refine ⟨?_, ?_⟩
      · intro hnil
        exfalso
        have hids := registerIntoList_ids info st.models ms2 hreg
        simp only at hnil
        rw [hnil] at hids
        have hsm : st.models = [] := by
          have := hids.symm
          simpa using this
        rw [hsm] at hreg
        cases hreg
      · intro id hid
        simp only at hid
        obtain ⟨m, hm, hmid⟩ := h.2 id hid
        by_cases hmi : m.model_id = info.model_id
        · exact ⟨info, registerIntoList_mem_info info st.models ms2 hreg,
            by rw [← hmi, hmid]⟩
        · exact ⟨m,
            (registerIntoList_mem_iff info st.models ms2 hreg m hmi).mpr hm,
            hmid⟩
    | none =>
      refine ⟨?_, ?_⟩
      · intro hnil
        exfalso
        simp at hnil
      · intro id hid
        simp only at hid
        exact update_best_some kind _ id hid

theorem remove_model_preserves (kind : RegKind) (st : RegistryState)
    (mid : String) (h : BestValid st) :
    BestValid (remove_model kind st mid).1 := by
  unfold remove_model
  by_cases hlt : (st.models.filter (fun m => m.model_id ≠ mid)).length
      < st.models.length
  · rw [if_pos hlt]
    by_cases hb : st.best_model_id = some mid
    · rw [if_pos hb]
      refine ⟨?_, ?_⟩
      · intro hnil
        simp only at hnil ⊢
        rw [hnil, update_best_nil]
      · intro id hid
        simp only at hid
        exact update_best_some kind _ id hid
    · rw [if_neg hb]
      refine ⟨?_, ?_⟩
      · intro hnil
        simp only at hnil ⊢
        cases hbm : st.best_model_id with
        | none => rfl
        | some id =>
          exfalso
          obtain ⟨m, hm, hmid⟩ := h.2 id hbm
          have hne : m.model_id ≠ mid := by
            intro hc
            exact hb (by rw [hbm, ← hc, hmid])
          have : m ∈ st.models.filter (fun m => m.model_id ≠ mid) :=
            List.mem_filter.mpr ⟨hm, by simpa using hne⟩
          rw [hnil] at this
          cases this
      · intro id hid
        simp only at hid
        obtain ⟨m, hm, hmid⟩ := h.2 id hid
        have hne : m.model_id ≠ mid := by
          intro hc
          exact hb (by rw [hid, ← hc, hmid])
        exact ⟨m, List.mem_filter.mpr ⟨hm, by simpa using hne⟩, hmid⟩
  · rw [if_neg hlt]
    have hle : (st.models.filter (fun m => m.model_id ≠ mid)).length
        ≤ st.models.length := List.length_filter_le _ _
    have hlen : (st.models.filter (fun m => m.model_id ≠ mid)).length
        = st.models.length := le_antisymm hle (not_lt.mp hlt)
    have hself : st.models.filter (fun m => m.model_id ≠ mid) = st.models := by
      apply List.filter_eq_self.mpr
      intro a ha
      exact List.filter_length_eq_length.mp hlen a ha
    refine ⟨?_, ?_⟩
    · intro hnil
      simp only at hnil ⊢
      rw [hself] at hnil
      exact h.1 hnil
    · intro id hid
      simp only at hid ⊢
      rw [hself]
      exact h.2 id hid

theorem emptyRegistry_BestValid : BestValid emptyRegistry := by
  refine ⟨fun _ => rfl, fun id hid => ?_⟩
  cases hid

theorem applyOp_preserves (kind : RegKind) (st : RegistryState)
    (op : RegOp) (h : BestValid st) : BestValid (applyOp kind st op) := by
  cases op with
  | reg info => exact register_model_preserves kind st info h
  | rem id => exact remove_model_preserves kind st id h

theorem runOps_preserves (kind : RegKind) (ops : List RegOp) :
    ∀ st : RegistryState, BestValid st → BestValid (runOps kind st ops) := by
  induction ops with
  | nil => intro st h; exact h
  | cons op rest ih =>
    intro st h
    exact ih (applyOp kind st op) (applyOp_preserves kind st op h)

end Registry

namespace Registry

/-- C1 (counterexample): registering an entry that overwrites an
existing `model_id` does not recompute `best_model_id`.  Register A
(accuracy 9), then B (accuracy 5), then overwrite A with accuracy 1: the
registry still designates A as best although recomputing the comparator
over the resulting entries designates B. -/
theorem register_model_overwrite_keeps_stale_best :
    ((register_model .winner
        ((register_model .winner
            ((register_model .winner emptyRegistry
                ⟨"A", some 9, none⟩).1)
            ⟨"B", some 5, none⟩).1)
        ⟨"A", some 1, none⟩).1.best_model_id = some "A") ∧
    (update_best .winner
        (register_model .winner
            ((register_model .winner
                ((register_model .winner emptyRegistry
                    ⟨"A", some 9, none⟩).1)
                ⟨"B", some 5, none⟩).1)
            ⟨"A", some 1, none⟩).1.models = some "B") ∧
    ((register_model .winner
        ((register_model .winner
            ((register_model .winner emptyRegistry
                ⟨"A", some 9, none⟩).1)
            ⟨"B", some 5, none⟩).1)
        ⟨"A", some 1, none⟩).1.best_model_id ≠
      update_best .winner
        (register_model .winner
            ((register_model .winner
                ((register_model .winner emptyRegistry
                    ⟨"A", some 9, none⟩).1)
                ⟨"B", some 5, none⟩).1)
            ⟨"A", some 1, none⟩).1.models) := by
  decide

/-- C1 (amended): for every registry and entry with a non-empty
model_id, `register_model` appends the entry and recomputes
`best_model_id` over the resulting entries when no entry with that
model_id exists; when one exists it overwrites that entry in place
(the multiset of model_ids is unchanged and the new entry is present)
but leaves `best_model_id` unchanged, without recomputation. -/
theorem register_model_insert_or_overwrite (kind : RegKind)
    (st : RegistryState) (info : ModelInfo) (h : info.model_id ≠ "") :
    ((∀ m ∈ st.models, m.model_id ≠ info.model_id) →
      (register_model kind st info).1.models = st.models ++ [info] ∧
      (register_model kind st info).1.best_model_id
        = update_best kind (st.models ++ [info])) ∧
    ((∃ m ∈ st.models, m.model_id = info.model_id) →
      (register_model kind st info).1.models.map (fun m => m.model_id)
        = st.models.map (fun m => m.model_id) ∧
      info ∈ (register_model kind st info).1.models ∧
      (register_model kind st info).1.best_model_id
        = st.best_model_id) := by
  unfold register_model
  rw [if_neg h]
  cases hreg : registerIntoList info st.models with
  | some ms2 =>
    refine ⟨fun hnone => ?_, fun _ => ?_⟩
    · exfalso
      have hn : registerIntoList info st.models = none :=
        (registerIntoList_none_iff info st.models).mpr hnone
      rw [hn] at hreg
      cases hreg
    · exact ⟨registerIntoList_ids info st.models ms2 hreg,
        registerIntoList_mem_info info st.models ms2 hreg, rfl⟩
  | none =>
    refine ⟨fun _ => ⟨rfl, rfl⟩, fun hex => ?_⟩
    exfalso
    obtain ⟨m, hm, hmid⟩ := hex
    exact (registerIntoList_none_iff info st.models).mp hreg m hm hmid

end Registry

namespace Registry

/-- Witness for the amended C1 at a concrete input: inserting a fresh
entry into the empty registry appends it and recomputes the best. -/
theorem register_model_insert_or_overwrite_witness :
    (register_model .winner emptyRegistry
        ⟨"A", some 1, none⟩).1.models
      = emptyRegistry.models ++ [⟨"A", some 1, none⟩] ∧
    (register_model .winner emptyRegistry
        ⟨"A", some 1, none⟩).1.best_model_id
      = update_best .winner
          (emptyRegistry.models ++ [⟨"A", some 1, none⟩]) :=
  (register_model_insert_or_overwrite .winner emptyRegistry
      ⟨"A", some 1, none⟩ (by decide)).1 (by intro m hm; cases hm)

/-- C2: with pairwise-distinct model ids (all non-empty), once the best
model has been recomputed, `get_best_model_info` of a winner registry
returns the strictly max-accuracy entry and of a score registry the
strictly min-MAE entry, and of an empty registry it returns `None`. -/
theorem get_best_model_info_comparator (ms : List ModelInfo)
    (hid : ms.Pairwise (fun a b => a.model_id ≠ b.model_id))
    (hne : ∀ m ∈ ms, m.model_id ≠ "") :
    ((∀ m ∈ ms, m.accuracy.isSome) →
      ms.Pairwise (fun a b => accKey a ≠ accKey b) → ms ≠ [] →
      ∃ e ∈ ms, get_best_model_info ⟨ms, update_best .winner ms⟩ = some e ∧
        ∀ m ∈ ms, m ≠ e → accKey m < accKey e) ∧
    ((∀ m ∈ ms, m.total_score_mae.isSome) →
      ms.Pairwise (fun a b => maeKey a ≠ maeKey b) → ms ≠ [] →
      ∃ e ∈ ms, get_best_model_info ⟨ms, update_best .score ms⟩ = some e ∧
        ∀ m ∈ ms, m ≠ e → maeKey e < maeKey m) ∧
    get_best_model_info ⟨[], update_best .winner []⟩ = none ∧
    get_best_model_info ⟨[], update_best .score []⟩ = none := by
  refine ⟨?_, ?_, rfl, rfl⟩
  · intro _ hacc hms
    cases ms with
    | nil => exact absurd rfl hms
    | cons a t =>
      refine ⟨pyMaxBy accKey a t, pyMaxBy_mem accKey t a, ?_, ?_⟩
      · have hbid : update_best .winner (a :: t)
            = some (pyMaxBy accKey a t).model_id := rfl
        unfold get_best_model_info
        rw [hbid]
        simp only
        rw [if_neg (hne _ (pyMaxBy_mem accKey t a))]
        exact find_first_of_pairwise (a :: t) (pyMaxBy accKey a t) hid
          (pyMaxBy_mem accKey t a)
      · intro m hm hne2
        have hle := pyMaxBy_le accKey t a m hm
        have hnacc : accKey m ≠ accKey (pyMaxBy accKey a t) :=
          hacc.forall (fun _ _ hp => Ne.symm hp) hm
            (pyMaxBy_mem accKey t a) hne2
        exact lt_of_le_of_ne hle hnacc
  · intro _ hmae hms
    cases ms with
    | nil => exact absurd rfl hms
    | cons a t =>
      refine ⟨pyMinBy maeKey a t, pyMinBy_mem maeKey t a, ?_, ?_⟩
      · have hbid : update_best .score (a :: t)
            = some (pyMinBy maeKey a t).model_id := rfl
        unfold get_best_model_info
        rw [hbid]
        simp only
        rw [if_neg (hne _ (pyMinBy_mem maeKey t a))]
        exact find_first_of_pairwise (a :: t) (pyMinBy maeKey a t) hid
          (pyMinBy_mem maeKey t a)
      · intro m hm hne2
        have hle := pyMinBy_le maeKey t a m hm
        have hnmae : maeKey (pyMinBy maeKey a t) ≠ maeKey m :=
          hmae.forall (fun _ _ hp => Ne.symm hp)
            (pyMinBy_mem maeKey t a) hm (Ne.symm hne2)
        exact lt_of_le_of_ne hle hnmae

/-- Witness for C2 at a two-entry registry: the winner comparator
designates the accuracy-2 entry. -/
theorem get_best_model_info_comparator_witness :
    ∃ e ∈ [ModelInfo.mk "A" (some 1) (some 2),
           ModelInfo.mk "B" (some 2) (some 1)],
      get_best_model_info
          ⟨[ModelInfo.mk "A" (some 1) (some 2),
            ModelInfo.mk "B" (some 2) (some 1)],
           update_best .winner
             [ModelInfo.mk "A" (some 1) (some 2),
              ModelInfo.mk "B" (some 2) (some 1)]⟩ = some e ∧
      ∀ m ∈ [ModelInfo.mk "A" (some 1) (some 2),
             ModelInfo.mk "B" (some 2) (some 1)],
        m ≠ e → accKey m < accKey e :=
  (get_best_model_info_comparator
      [ModelInfo.mk "A" (some 1) (some 2),
       ModelInfo.mk "B" (some 2) (some 1)]
      (by decide) (by decide)).1 (by decide) (by decide) (by decide)

/-- C7: a missing or undecodable persisted store loads as the empty
registry: in-memory state `{models: [], best_model_id: None}`,
`list_models` empty, `get_best_model_info` none. -/
theorem load_registry_missing_or_unreadable (s : StoreState)
    (h : s = StoreState.missing ∨ s = StoreState.unreadable) :
    load_registry s = emptyRegistry ∧
    (load_registry s).models = [] ∧
    (load_registry s).best_model_id = none ∧
    list_models (load_registry s) = [] ∧
    get_best_model_info (load_registry s) = none := by
  rcases h with rfl | rfl <;> exact ⟨rfl, rfl, rfl, rfl, rfl⟩

/-- Witness for C7 at the missing store. -/
theorem load_registry_missing_or_unreadable_witness :
    load_registry .missing = emptyRegistry ∧
    (load_registry .missing).models = [] ∧
    (load_registry .missing).best_model_id = none ∧
    list_models (load_registry .missing) = [] ∧
    get_best_model_info (load_registry .missing) = none :=
  load_registry_missing_or_unreadable .missing (Or.inl rfl)

/-- C10: after any finite sequence of `register_model` and
`remove_model` operations starting from the empty registry,
`best_model_id` either is `None` or names an entry currently present,
and it is `None` whenever the entry list is empty. -/
theorem best_model_id_never_dangles (kind : RegKind) (ops : List RegOp) :
    BestValid (runOps kind emptyRegistry ops) :=
  runOps_preserves kind ops emptyRegistry emptyRegistry_BestValid

end Registry

namespace Tuner

/-- A hyperparameter assignment: the `params` dict of a trial. -/
abbrev Params := List (String × ℚ)

/-- The metrics dict read back from `model.model_info["metrics"]`. -/
abbrev Metrics := List (String × ℚ)

/-- Python `metrics.get(key, default)`. -/
def mget (m : Metrics) (k : String) (d : ℚ) : ℚ :=
  (m.lookup k).getD d

/-- Score extraction of `BaseTuner._evaluate_params` from the metrics
dict, per scoring mode. -/
def scoreFromMetrics (scoring : String) (metrics : Metrics) : ℚ :=
  if scoring = "neg_mean_absolute_error" then
    match metrics.lookup "total_score_mae" with
    | some mae => -mae
    | none =>
      -((mget metrics "home_score_mae" 0 + mget metrics "away_score_mae" 0) / 2)
  else if scoring = "accuracy" then
    mget metrics "accuracy" 0
  else
    mget metrics scoring 0

/-- One entry of `self.results` (the trial history).  The wall-clock
`timestamp` string the code also stores is logging metadata and is not
modelled. -/
structure TrialResult where
  params : Params
  score : ℚ
  metrics : Metrics
  deriving DecidableEq, Repr

/-- The mutable fields of `BaseTuner`.  A trained model object is
identified by the params it was built from.  `best_score` lives in
`WithBot ℚ` because the final assignment in `optimize` can store
`float('-inf')` when every trial failed. -/
structure TunerState where
  best_params : Option Params
  best_score : Option (WithBot ℚ)
  best_model : Option Params
  results : List TrialResult
  deriving DecidableEq, Repr

/-- The state after `BaseTuner.__init__`. -/
def initialTuner : TunerState := ⟨none, none, none, []⟩

/-- What happened inside the `try` of `_evaluate_params`: training (or
metric read-back) raised, or it produced a metrics dict. -/
abbrev TrialOutcome := Except Unit Metrics

/-- The champion test of `_evaluate_params`:
`self.best_score is None or score > self.best_score`. -/
def champBetter : Option (WithBot ℚ) → ℚ → Bool
  | none, _ => true
  | some b, s => decide (b < ((s : ℚ) : WithBot ℚ))

/-- `BaseTuner._evaluate_params`: on an exception, return
`float('-inf')` and leave the state untouched; otherwise compute the
oriented score, append to the trial history, and replace the champion
exactly when the score strictly exceeds the current best (or none is
set). -/
def evaluate_params (st : TunerState) (params : Params)
    (outcome : TrialOutcome) (scoring : String) :
    WithBot ℚ × TunerState :=
  match outcome with
  | .error _ => (⊥, st)
  | .ok metrics =>
    if champBetter st.best_score (scoreFromMetrics scoring metrics) then
      (((scoreFromMetrics scoring metrics : ℚ) : WithBot ℚ),
        { best_params := some params,
          best_score :=
            some ((scoreFromMetrics scoring metrics : ℚ) : WithBot ℚ),
          best_model := some params,
          results := st.results
            ++ [⟨params, scoreFromMetrics scoring metrics, metrics⟩] })
    else
      (((scoreFromMetrics scoring metrics : ℚ) : WithBot ℚ),
        { st with
            results := st.results
              ++ [⟨params, scoreFromMetrics scoring metrics, metrics⟩] })

/-- The trial loop of an `optimize` run: the surrogate hands
`_evaluate_params` a sequence of candidates (each with its training
outcome); collect the returned per-trial scores and thread the state. -/
def run_trials (scoring : String) :
    TunerState → List (Params × TrialOutcome) →
    List (WithBot ℚ) × TunerState
  | st, [] => ([], st)
  | st, (p, o) :: rest =>
    let r := evaluate_params st p o scoring
    let rr := run_trials scoring r.2 rest
    (r.1 :: rr.1, rr.2)

/-- The skopt objective value of a trial: `-score`, where the `-inf`
failure score becomes `+inf`. -/
def negObjective : WithBot ℚ → WithTop ℚ
  | none => ⊤
  | some q => ((-q : ℚ) : WithTop ℚ)

/-- `gp_minimize(...).fun`: the minimum objective value over all
evaluated calls. -/
def gpFun (objs : List (WithTop ℚ)) : WithTop ℚ :=
  objs.foldr min ⊤

/-- `-result.fun`, converting back to score orientation
(`-inf` when every objective was `+inf`). -/
def negFun : WithTop ℚ → WithBot ℚ
  | none => ⊥
  | some q => ((-q : ℚ) : WithBot ℚ)

/-- `BayesianOptimizer.optimize`: run the trials, then store the best
parameters (the argmin point returned by `gp_minimize`), the best score
`-result.fun`, and a model for the best parameters if no champion model
was kept; return the best score and final state. -/
def optimize (trials : List (Params × TrialOutcome)) (scoring : String) :
    WithBot ℚ × TunerState :=
  let r := run_trials scoring initialTuner trials
  let objs := r.1.map negObjective
  let best := negFun (gpFun objs)
  let bestIdx := objs.indexOf (gpFun objs)
  let bp := (trials.get? bestIdx).map Prod.fst
  (best,
    { r.2 with
        best_params := bp,
        best_score := some best,
        best_model :=
          match r.2.best_model with
          | some m => some m
          | none => bp })

end Tuner

namespace Tuner

theorem negObjective_bot : negObjective (⊥ : WithBot ℚ) = ⊤ := rfl

theorem negObjective_coe (q : ℚ) :
    negObjective ((q : ℚ) : WithBot ℚ) = ((-q : ℚ) : WithTop ℚ) := rfl

theorem negFun_top : negFun (⊤ : WithTop ℚ) = ⊥ := rfl

theorem negFun_coe (q : ℚ) :
    negFun ((q : ℚ) : WithTop ℚ) = ((-q : ℚ) : WithBot ℚ) := rfl

theorem negFun_negObjective (s : WithBot ℚ) :
    negFun (negObjective s) = s := by
  induction s using WithBot.recBotCoe with
  | bot => rfl
  | coe q => rw [negObjective_coe, negFun_coe, neg_neg]

theorem negFun_min (a b : WithTop ℚ) :
    negFun (min a b) = max (negFun a) (negFun b) := by
  induction a using WithTop.recTopCoe with
  | top => rw [min_eq_right le_top, negFun_top, max_eq_right bot_le]
  | coe q =>
    induction b using WithTop.recTopCoe with
    | top => rw [min_eq_left le_top, negFun_top, max_eq_left bot_le]
    | coe r =>
      rw [← WithTop.coe_min, negFun_coe, negFun_coe, negFun_coe,
        ← WithBot.coe_max]
      congr 1
      exact (max_neg_neg q r).symm

theorem negFun_gpFun (scores : List (WithBot ℚ)) :
    negFun (gpFun (scores.map negObjective)) = scores.foldr max ⊥ := by
  induction scores with
  | nil => rfl
  | cons s rest ih =>
    show negFun (min (negObjective s) (gpFun (rest.map negObjective)))
        = max s (rest.foldr max ⊥)
    rw [negFun_min, negFun_negObjective, ih]

theorem evaluate_params_mono (st : TunerState) (p : Params)
    (o : TrialOutcome) (scoring : String) (b : WithBot ℚ)
    (hb : st.best_score = some b) :
    ∃ b2, (evaluate_params st p o scoring).2.best_score = some b2
      ∧ b ≤ b2 := by
  cases o with
  | error e => exact ⟨b, hb, le_refl b⟩
  | ok metrics =>
    simp only [evaluate_params]
    by_cases hbet : champBetter st.best_score
        (scoreFromMetrics scoring metrics) = true
    · rw [if_pos hbet]
      refine ⟨((scoreFromMetrics scoring metrics : ℚ) : WithBot ℚ),
        rfl, ?_⟩
      rw [hb] at hbet
      exact le_of_lt (of_decide_eq_true hbet)
    · rw [if_neg hbet]
      exact ⟨b, hb, le_refl b⟩

theorem run_trials_mono (scoring : String)
    (trials : List (Params × TrialOutcome)) :
    ∀ (st : TunerState) (b : WithBot ℚ), st.best_score = some b →
    ∃ b2, (run_trials scoring st trials).2.best_score = some b2
      ∧ b ≤ b2 := by
  induction trials with
  | nil => intro st b hb; exact ⟨b, hb, le_refl b⟩
  | cons t rest ih =>
    intro st b hb
    obtain ⟨p, o⟩ := t
    obtain ⟨b1, hb1, hle1⟩ := evaluate_params_mono st p o scoring b hb
    obtain ⟨b2, hb2, hle2⟩ :=
      ih (evaluate_params st p o scoring).2 b1 hb1
    exact ⟨b2, hb2, le_trans hle1 hle2⟩

end Tuner

namespace Tuner

/-- C3: during an optimize run the tracked champion best_score never
decreases as trials accumulate; it is replaced only when a trial's
oriented score strictly exceeds it; and the best_score returned by
`optimize` equals the maximum of all oriented per-trial scores of the
run, the bottom scores assigned to failed trials included. -/
theorem optimize_champion_monotone_max (st : TunerState)
    (trials : List (Params × TrialOutcome)) (scoring : String)
    (p : Params) (o : TrialOutcome) (b : WithBot ℚ)
    (hb : st.best_score = some b) (hne : trials ≠ [])
    (hchange : (evaluate_params st p o scoring).2.best_score
      ≠ st.best_score) :
    (∃ b2, (run_trials scoring st trials).2.best_score = some b2
      ∧ b ≤ b2) ∧
    (optimize trials scoring).1
      = (run_trials scoring initialTuner trials).1.foldr max ⊥ ∧
    ((evaluate_params st p o scoring).2.best_score
        = some (evaluate_params st p o scoring).1 ∧
      b < (evaluate_params st p o scoring).1) := by
  refine ⟨run_trials_mono scoring trials st b hb, ?_, ?_⟩
  · exact negFun_gpFun (run_trials scoring initialTuner trials).1
  · cases o with
    | error e => exact absurd rfl hchange
    | ok metrics =>
      by_cases hbet : champBetter st.best_score
          (scoreFromMetrics scoring metrics) = true
      · have e : evaluate_params st p (Except.ok metrics) scoring
            = (((scoreFromMetrics scoring metrics : ℚ) : WithBot ℚ),
               { best_params := some p,
                 best_score := some ((scoreFromMetrics scoring metrics : ℚ)
                   : WithBot ℚ),
                 best_model := some p,
                 results := st.results
                   ++ [⟨p, scoreFromMetrics scoring metrics, metrics⟩] }) := by
          simp only [evaluate_params, if_pos hbet]
        rw [e]
        rw [hb] at hbet
        exact ⟨rfl, of_decide_eq_true hbet⟩
      · exfalso
        apply hchange
        have e : evaluate_params st p (Except.ok metrics) scoring
            = (((scoreFromMetrics scoring metrics : ℚ) : WithBot ℚ),
               { st with results := st.results
                   ++ [⟨p, scoreFromMetrics scoring metrics, metrics⟩] }) := by
          simp only [evaluate_params, if_neg hbet]
        rw [e]

end Tuner

namespace Tuner

/-- Witness for C3 at a concrete run: champion at 3, one successful
trial scoring 5. -/
theorem optimize_champion_monotone_max_witness :
    (∃ b2, (run_trials "accuracy"
        ⟨none, some ((3 : ℚ) : WithBot ℚ), none, []⟩
        [([], Except.ok [("accuracy", (5 : ℚ))])]).2.best_score = some b2
      ∧ ((3 : ℚ) : WithBot ℚ) ≤ b2) ∧
    (optimize [([], Except.ok [("accuracy", (5 : ℚ))])] "accuracy").1
      = (run_trials "accuracy" initialTuner
          [([], Except.ok [("accuracy", (5 : ℚ))])]).1.foldr max ⊥ ∧
    ((evaluate_params ⟨none, some ((3 : ℚ) : WithBot ℚ), none, []⟩ []
        (Except.ok [("accuracy", (5 : ℚ))]) "accuracy").2.best_score
        = some (evaluate_params
            ⟨none, some ((3 : ℚ) : WithBot ℚ), none, []⟩ []
            (Except.ok [("accuracy", (5 : ℚ))]) "accuracy").1 ∧
      ((3 : ℚ) : WithBot ℚ) < (evaluate_params
          ⟨none, some ((3 : ℚ) : WithBot ℚ), none, []⟩ []
          (Except.ok [("accuracy", (5 : ℚ))]) "accuracy").1) :=
  optimize_champion_monotone_max
    ⟨none, some ((3 : ℚ) : WithBot ℚ), none, []⟩
    [([], Except.ok [("accuracy", (5 : ℚ))])] "accuracy" []
    (Except.ok [("accuracy", (5 : ℚ))]) ((3 : ℚ) : WithBot ℚ)
    rfl (List.cons_ne_nil _ _) (by decide)

/-- C4: a candidate whose training or metric read-back raises is scored
as bottom (float minus infinity) with the entire tuner state, champion
included, left untouched, and the surrounding run continues with the
remaining trials unaffected. -/
theorem evaluate_params_failure (st : TunerState) (p : Params)
    (scoring : String) (rest : List (Params × TrialOutcome)) :
    evaluate_params st p (Except.error ()) scoring = (⊥, st) ∧
    run_trials scoring st ((p, Except.error ()) :: rest)
      = ((⊥ : WithBot ℚ) :: (run_trials scoring st rest).1,
         (run_trials scoring st rest).2) :=
  ⟨rfl, rfl⟩

end Tuner

namespace Predict

/-- Per-team sub-stats dict of a player (`teams_used[team_id]`). -/
structure TeamStats where
  win_rate : Option ℚ
  avg_score : Option ℚ
  «matches» : Option ℚ
  deriving DecidableEq, Repr

/-- Per-opponent sub-stats dict of a player
(`opponents_faced[opponent_id]`). -/
structure OppStats where
  win_rate : Option ℚ
  «matches» : Option ℚ
  total_score : Option ℚ
  deriving DecidableEq, Repr

/-- A player statistics dict; every field is read with a `get` default
in the code, so all are optional. -/
structure Player where
  win_rate : Option ℚ
  avg_score : Option ℚ
  total_matches : Option ℚ
  teams_used : List (String × TeamStats)
  opponents_faced : List (String × OppStats)
  deriving DecidableEq, Repr

/-- The `player_stats` dict keyed by player id. -/
abbrev PlayerStats := List (String × Player)

/-- The id fields a `predict` call reads from the match dict. -/
structure MatchIds where
  homePlayerId : String
  awayPlayerId : String
  homeTeamId : String
  awayTeamId : String
  deriving DecidableEq, Repr

/-- `_get_team_win_rate` (identical in both model classes). -/
def get_team_win_rate (p : Player) (team_id : String) : ℚ :=
  match p.teams_used.lookup team_id with
  | some t => t.win_rate.getD 0
  | none => 0

/-- `_get_team_avg_score`. -/
def get_team_avg_score (p : Player) (team_id : String) : ℚ :=
  match p.teams_used.lookup team_id with
  | some t => t.avg_score.getD 0
  | none => 0

/-- `_get_team_matches`. -/
def get_team_matches (p : Player) (team_id : String) : ℚ :=
  match p.teams_used.lookup team_id with
  | some t => t.«matches».getD 0
  | none => 0

/-- `_get_h2h_win_rate`. -/
def get_h2h_win_rate (p : Player) (opponent_id : String) : ℚ :=
  match p.opponents_faced.lookup opponent_id with
  | some o => o.win_rate.getD 0
  | none => 0

/-- `ScorePredictionModel._get_recent_form`: the code uses the overall
win rate as a proxy. -/
def get_recent_form (p : Player) : ℚ :=
  p.win_rate.getD 0

/-- `ScorePredictionModel._get_avg_score_against`: the code uses the
overall average score as a proxy, ignoring the opponent id. -/
def get_avg_score_against (p : Player) (opponent_id : String) : ℚ :=
  p.avg_score.getD 0

/-- The result dict of `WinnerPredictionModel.predict`. -/
structure WinnerPrediction where
  home_win_probability : ℚ
  away_win_probability : ℚ
  predicted_winner : String
  confidence : ℚ
  deriving DecidableEq, Repr

/-- The 14-entry feature list `WinnerPredictionModel.predict` builds. -/
def winner_features (hp ap : Player) (mt : MatchIds) : List ℚ :=
  [hp.win_rate.getD 0, ap.win_rate.getD 0,
   hp.avg_score.getD 0, ap.avg_score.getD 0,
   hp.total_matches.getD 0, ap.total_matches.getD 0,
   get_team_win_rate hp mt.homeTeamId, get_team_win_rate ap mt.awayTeamId,
   get_team_avg_score hp mt.homeTeamId,
   get_team_avg_score ap mt.awayTeamId,
   get_team_matches hp mt.homeTeamId, get_team_matches ap mt.awayTeamId,
   get_h2h_win_rate hp mt.awayPlayerId, get_h2h_win_rate ap mt.homePlayerId]

/-- `WinnerPredictionModel.predict`.  `proba` abstracts the trained
classifier (class-0 and class-1 probabilities of `predict_proba`), and
`rng` abstracts the `np.random.random()` draw used only in the
missing-stats fallback. -/
def winner_predict (proba : List ℚ → ℚ × ℚ) (rng : ℚ)
    (player_stats : PlayerStats) (mt : MatchIds) : WinnerPrediction :=
  match player_stats.lookup mt.homePlayerId,
        player_stats.lookup mt.awayPlayerId with
  | some hp, some ap =>
    { home_win_probability := (proba (winner_features hp ap mt)).2,
      away_win_probability := (proba (winner_features hp ap mt)).1,
      predicted_winner :=
        if (proba (winner_features hp ap mt)).2
            > (proba (winner_features hp ap mt)).1
        then "home" else "away",
      confidence := max (proba (winner_features hp ap mt)).2
        (proba (winner_features hp ap mt)).1 }
  | _, _ =>
    { home_win_probability := 1/2,
      away_win_probability := 1/2,
      predicted_winner := if rng > 1/2 then "home" else "away",
      confidence := 1/2 }

/-- The result dict of `ScorePredictionModel.predict`. -/
structure ScorePrediction where
  home_score : ℤ
  away_score : ℤ
  total_score : ℤ
  score_diff : ℤ
  deriving DecidableEq, Repr

/-- Python `round` on a float value: round half to even. -/
def pyRound (q : ℚ) : ℤ :=
  if q - ⌊q⌋ < 1/2 then ⌊q⌋
  else if q - ⌊q⌋ > 1/2 then ⌊q⌋ + 1
  else if ⌊q⌋ % 2 = 0 then ⌊q⌋ else ⌊q⌋ + 1

/-- The 18-entry feature list `ScorePredictionModel.predict` builds. -/
def score_features (hp ap : Player) (mt : MatchIds) : List ℚ :=
  [hp.win_rate.getD 0, ap.win_rate.getD 0,
   hp.avg_score.getD 0, ap.avg_score.getD 0,
   hp.total_matches.getD 0, ap.total_matches.getD 0,
   get_team_win_rate hp mt.homeTeamId, get_team_win_rate ap mt.awayTeamId,
   get_team_avg_score hp mt.homeTeamId,
   get_team_avg_score ap mt.awayTeamId,
   get_team_matches hp mt.homeTeamId, get_team_matches ap mt.awayTeamId,
   get_h2h_win_rate hp mt.awayPlayerId, get_h2h_win_rate ap mt.homePlayerId,
   get_recent_form hp, get_recent_form ap,
   get_avg_score_against hp mt.awayPlayerId,
   get_avg_score_against ap mt.homePlayerId]

/-- `ScorePredictionModel.predict`.  `home_model` and `away_model`
abstract the two trained regressors. -/
def score_predict (home_model away_model : List ℚ → ℚ)
    (player_stats : PlayerStats) (mt : MatchIds) : ScorePrediction :=
  match player_stats.lookup mt.homePlayerId,
        player_stats.lookup mt.awayPlayerId with
  | some hp, some ap =>
    { home_score := max 0 (pyRound (home_model (score_features hp ap mt))),
      away_score := max 0 (pyRound (away_model (score_features hp ap mt))),
      total_score :=
        max 0 (pyRound (home_model (score_features hp ap mt)))
          + max 0 (pyRound (away_model (score_features hp ap mt))),
      score_diff :=
        max 0 (pyRound (home_model (score_features hp ap mt)))
          - max 0 (pyRound (away_model (score_features hp ap mt))) }
  | _, _ =>
    { home_score := 60, away_score := 60,
      total_score := 120, score_diff := 0 }

end Predict

namespace Predict

/-- C5: when either player id is absent from player_stats, both predict
methods return their neutral fallbacks without consulting the models:
probabilities 0.5 / 0.5 with confidence 0.5 and a pseudo-random winner,
and default scores 60 / 60 with total 120 and difference 0. -/
theorem predict_missing_player_fallback (proba : List ℚ → ℚ × ℚ)
    (rng : ℚ) (home_model away_model : List ℚ → ℚ)
    (player_stats : PlayerStats) (mt : MatchIds)
    (h : player_stats.lookup mt.homePlayerId = none
       ∨ player_stats.lookup mt.awayPlayerId = none) :
    (winner_predict proba rng player_stats mt).home_win_probability = 1/2 ∧
    (winner_predict proba rng player_stats mt).away_win_probability = 1/2 ∧
    (winner_predict proba rng player_stats mt).confidence = 1/2 ∧
    ((winner_predict proba rng player_stats mt).predicted_winner = "home"
      ∨ (winner_predict proba rng player_stats mt).predicted_winner
          = "away") ∧
    score_predict home_model away_model player_stats mt
      = ⟨60, 60, 120, 0⟩ := by
  have hwin : ∀ r : ℚ, (if r > 1/2 then "home" else "away") = "home"
      ∨ (if r > 1/2 then "home" else "away") = "away" := by
    intro r
    split
    · exact Or.inl rfl
    · exact Or.inr rfl
  rcases h with h | h
  · rw [winner_predict, score_predict, h]
    exact ⟨rfl, rfl, rfl, hwin rng, rfl⟩
  · cases hh : player_stats.lookup mt.homePlayerId with
    | none =>
      rw [winner_predict, score_predict, hh]
      exact ⟨rfl, rfl, rfl, hwin rng, rfl⟩
    | some hp =>
      rw [winner_predict, score_predict, hh, h]
      exact ⟨rfl, rfl, rfl, hwin rng, rfl⟩

/-- Witness for C5: empty player_stats. -/
theorem predict_missing_player_fallback_witness :
    (winner_predict (fun _ => (0, 1)) 0 []
        ⟨"h", "a", "t1", "t2"⟩).home_win_probability = 1/2 ∧
    (winner_predict (fun _ => (0, 1)) 0 []
        ⟨"h", "a", "t1", "t2"⟩).away_win_probability = 1/2 ∧
    (winner_predict (fun _ => (0, 1)) 0 []
        ⟨"h", "a", "t1", "t2"⟩).confidence = 1/2 ∧
    ((winner_predict (fun _ => (0, 1)) 0 []
        ⟨"h", "a", "t1", "t2"⟩).predicted_winner = "home"
      ∨ (winner_predict (fun _ => (0, 1)) 0 []
          ⟨"h", "a", "t1", "t2"⟩).predicted_winner = "away") ∧
    score_predict (fun _ => 0) (fun _ => 0) []
        ⟨"h", "a", "t1", "t2"⟩ = ⟨60, 60, 120, 0⟩ :=
  predict_missing_player_fallback (fun _ => (0, 1)) 0
    (fun _ => 0) (fun _ => 0) [] ⟨"h", "a", "t1", "t2"⟩ (Or.inl rfl)

/-- C6: with both players present, the predicted scores are the
regressor outputs rounded then clamped at zero (hence non-negative
integers, whatever the regressors return), and total and difference are
computed from the clamped values. -/
theorem score_predict_round_clamp (home_model away_model : List ℚ → ℚ)
    (player_stats : PlayerStats) (mt : MatchIds) (hp ap : Player)
    (hh : player_stats.lookup mt.homePlayerId = some hp)
    (ha : player_stats.lookup mt.awayPlayerId = some ap) :
    0 ≤ (score_predict home_model away_model player_stats mt).home_score ∧
    0 ≤ (score_predict home_model away_model player_stats mt).away_score ∧
    (score_predict home_model away_model player_stats mt).total_score
      = (score_predict home_model away_model player_stats mt).home_score
        + (score_predict home_model away_model player_stats mt).away_score ∧
    (score_predict home_model away_model player_stats mt).score_diff
      = (score_predict home_model away_model player_stats mt).home_score
        - (score_predict home_model away_model player_stats mt).away_score ∧
    (score_predict home_model away_model player_stats mt).home_score
      = max 0 (pyRound (home_model (score_features hp ap mt))) ∧
    (score_predict home_model away_model player_stats mt).away_score
      = max 0 (pyRound (away_model (score_features hp ap mt))) := by
  rw [score_predict, hh, ha]
  exact ⟨le_max_left 0 _, le_max_left 0 _, rfl, rfl, rfl, rfl⟩

/-- Witness for C6: a regressor outputting a negative fractional value
is clamped to zero; the other, 2.5, rounds half-to-even to 2. -/
theorem score_predict_round_clamp_witness :
    0 ≤ (score_predict (fun _ => -37/10) (fun _ => 5/2)
        [("h", ⟨none, none, none, [], []⟩),
         ("a", ⟨none, none, none, [], []⟩)]
        ⟨"h", "a", "t1", "t2"⟩).home_score ∧
    0 ≤ (score_predict (fun _ => -37/10) (fun _ => 5/2)
        [("h", ⟨none, none, none, [], []⟩),
         ("a", ⟨none, none, none, [], []⟩)]
        ⟨"h", "a", "t1", "t2"⟩).away_score ∧
    (score_predict (fun _ => -37/10) (fun _ => 5/2)
        [("h", ⟨none, none, none, [], []⟩),
         ("a", ⟨none, none, none, [], []⟩)]
        ⟨"h", "a", "t1", "t2"⟩).total_score
      = (score_predict (fun _ => -37/10) (fun _ => 5/2)
          [("h", ⟨none, none, none, [], []⟩),
           ("a", ⟨none, none, none, [], []⟩)]
          ⟨"h", "a", "t1", "t2"⟩).home_score
        + (score_predict (fun _ => -37/10) (fun _ => 5/2)
            [("h", ⟨none, none, none, [], []⟩),
             ("a", ⟨none, none, none, [], []⟩)]
            ⟨"h", "a", "t1", "t2"⟩).away_score ∧
    (score_predict (fun _ => -37/10) (fun _ => 5/2)
        [("h", ⟨none, none, none, [], []⟩),
         ("a", ⟨none, none, none, [], []⟩)]
        ⟨"h", "a", "t1", "t2"⟩).score_diff
      = (score_predict (fun _ => -37/10) (fun _ => 5/2)
          [("h", ⟨none, none, none, [], []⟩),
           ("a", ⟨none, none, none, [], []⟩)]
          ⟨"h", "a", "t1", "t2"⟩).home_score
        - (score_predict (fun _ => -37/10) (fun _ => 5/2)
            [("h", ⟨none, none, none, [], []⟩),
             ("a", ⟨none, none, none, [], []⟩)]
            ⟨"h", "a", "t1", "t2"⟩).away_score ∧
    (score_predict (fun _ => -37/10) (fun _ => 5/2)
        [("h", ⟨none, none, none, [], []⟩),
         ("a", ⟨none, none, none, [], []⟩)]
        ⟨"h", "a", "t1", "t2"⟩).home_score
      = max 0 (pyRound ((fun _ => (-37/10 : ℚ))
          (score_features ⟨none, none, none, [], []⟩
            ⟨none, none, none, [], []⟩ ⟨"h", "a", "t1", "t2"⟩))) ∧
    (score_predict (fun _ => -37/10) (fun _ => 5/2)
        [("h", ⟨none, none, none, [], []⟩),
         ("a", ⟨none, none, none, [], []⟩)]
        ⟨"h", "a", "t1", "t2"⟩).away_score
      = max 0 (pyRound ((fun _ => (5/2 : ℚ))
          (score_features ⟨none, none, none, [], []⟩
            ⟨none, none, none, [], []⟩ ⟨"h", "a", "t1", "t2"⟩))) :=
  score_predict_round_clamp (fun _ => -37/10) (fun _ => 5/2)
    [("h", ⟨none, none, none, [], []⟩),
     ("a", ⟨none, none, none, [], []⟩)]
    ⟨"h", "a", "t1", "t2"⟩ ⟨none, none, none, [], []⟩
    ⟨none, none, none, [], []⟩ (by decide) (by decide)

end Predict

namespace Features

open Predict (Player PlayerStats TeamStats OppStats)

/-- An abstracted `datetime` value: its position on the timeline
(`ord`, used for comparisons), plus the `weekday()` (0 = Monday .. 6)
and `month` (1..12) fields read by the temporal block. -/
structure PyDate where
  ord : ℤ
  weekday : ℕ
  month : ℕ
  deriving DecidableEq, Repr

/-- A match dict, restricted to the fields feature extraction reads.
For the two date keys, `none` means the key is absent, `some none`
present but rejected by `strptime`, and `some (some d)` parsed as `d`. -/
structure MatchRec where
  homePlayerId : String
  awayPlayerId : String
  homeTeamId : String
  awayTeamId : String
  homeScore : Option ℚ
  awayScore : Option ℚ
  date : Option (Option PyDate)
  startTime : Option (Option PyDate)
  deriving DecidableEq, Repr

/-- The feature configuration dict of `FeatureEngineer`. -/
structure FeatureConfig where
  use_basic_features : Bool
  use_team_features : Bool
  use_h2h_features : Bool
  use_recent_form : Bool
  use_advanced_features : Bool
  use_temporal_features : Bool
  recent_matches_window : ℕ
  deriving DecidableEq, Repr

/-- `FeatureEngineer._parse_match_date`: the parsed `date` key, else the
parsed `startTime` key, else `datetime.now()` — also on any parse
failure.  The ambient clock is the explicit `now` argument. -/
def parse_match_date (now : PyDate) (m : MatchRec) : PyDate :=
  match m.date with
  | some (some d) => d
  | some none => now
  | none =>
    match m.startTime with
    | some (some d) => d
    | some none => now
    | none => now

/-- Both score keys present (`'homeScore' in match and 'awayScore' in
match`). -/
def has_scores (m : MatchRec) : Bool :=
  m.homeScore.isSome && m.awayScore.isSome

/-- `FeatureEngineer._get_previous_matches`: scored matches other than
the current one whose parsed date is strictly earlier. -/
def get_previous_matches (now : PyDate) (all_matches : List MatchRec)
    (current : MatchRec) (current_date : PyDate) : List MatchRec :=
  all_matches.filter (fun m =>
    has_scores m && (m != current)
      && decide ((parse_match_date now m).ord < current_date.ord))

/-- `FeatureEngineer._get_team_win_rate`. -/
def get_team_win_rate (p : Player) (team_id : String) : ℚ :=
  match p.teams_used.lookup team_id with
  | some t => t.win_rate.getD 0
  | none => 0

/-- `FeatureEngineer._get_team_avg_score`. -/
def get_team_avg_score (p : Player) (team_id : String) : ℚ :=
  match p.teams_used.lookup team_id with
  | some t => t.avg_score.getD 0
  | none => 0

/-- `FeatureEngineer._get_team_matches`. -/
def get_team_matches (p : Player) (team_id : String) : ℚ :=
  match p.teams_used.lookup team_id with
  | some t => t.«matches».getD 0
  | none => 0

/-- `FeatureEngineer._get_h2h_win_rate`. -/
def get_h2h_win_rate (p : Player) (opponent_id : String) : ℚ :=
  match p.opponents_faced.lookup opponent_id with
  | some o => o.win_rate.getD 0
  | none => 0

/-- `FeatureEngineer._get_h2h_matches`. -/
def get_h2h_matches (p : Player) (opponent_id : String) : ℚ :=
  match p.opponents_faced.lookup opponent_id with
  | some o => o.«matches».getD 0
  | none => 0

/-- `FeatureEngineer._get_avg_score_against`: total score over match
count against this opponent, when positive. -/
def get_avg_score_against (p : Player) (opponent_id : String) : ℚ :=
  match p.opponents_faced.lookup opponent_id with
  | some o =>
    if 0 < o.«matches».getD 0 then o.total_score.getD 0 / o.«matches».getD 0
    else 0
  | none => 0

/-- The player participates in the match (home or away). -/
def is_player_match (player_id : String) (m : MatchRec) : Bool :=
  (m.homePlayerId == player_id) || (m.awayPlayerId == player_id)

/-- One insertion step of the stable descending sort by parsed date
used in `_get_player_recent_matches` (`list.sort(key=..., reverse=True)`
is stable, so an element moves ahead only of strictly later-sorted
entries). -/
def insertByDateDesc (now : PyDate) (x : MatchRec) :
    List MatchRec → List MatchRec
  | [] => [x]
  | y :: ys =>
    if (parse_match_date now y).ord ≤ (parse_match_date now x).ord then
      x :: y :: ys
    else y :: insertByDateDesc now x ys

/-- Stable sort, most recent parsed date first. -/
def sortByDateDesc (now : PyDate) : List MatchRec → List MatchRec
  | [] => []
  | x :: xs => insertByDateDesc now x (sortByDateDesc now xs)

/-- `FeatureEngineer._get_player_recent_matches`: the player's matches,
sorted most recent first, truncated to the window. -/
def get_player_recent_matches (now : PyDate) (player_id : String)
    (ms : List MatchRec) (window_size : ℕ) : List MatchRec :=
  (sortByDateDesc now (ms.filter (is_player_match player_id))).take
    window_size

/-- The match is a win for the player (the `if/elif` win test used by
the recent-form helpers).  Score keys are read directly in the code;
every caller passes score-bearing matches, modelled by the default 0. -/
def win_for (player_id : String) (m : MatchRec) : Bool :=
  (m.homePlayerId == player_id
      && decide (m.awayScore.getD 0 < m.homeScore.getD 0))
    || (m.awayPlayerId == player_id
      && decide (m.homeScore.getD 0 < m.awayScore.getD 0))

/-- `FeatureEngineer._calculate_recent_win_rate`. -/
def calculate_recent_win_rate (player_id : String)
    (ms : List MatchRec) : ℚ :=
  if ms = [] then 0
  else ((ms.filter (win_for player_id)).length : ℚ) / (ms.length : ℚ)

/-- The player's score in a match (0 when not participating, matching
the `if/elif` accumulation). -/
def player_score_in (player_id : String) (m : MatchRec) : ℚ :=
  if m.homePlayerId == player_id then m.homeScore.getD 0
  else if m.awayPlayerId == player_id then m.awayScore.getD 0
  else 0

/-- `FeatureEngineer._calculate_recent_avg_score`. -/
def calculate_recent_avg_score (player_id : String)
    (ms : List MatchRec) : ℚ :=
  if ms = [] then 0
  else (ms.map (player_score_in player_id)).sum / (ms.length : ℚ)

/-- The per-participating-match score list built by the variance and
consistency helpers. -/
def player_scores (player_id : String) (ms : List MatchRec) : List ℚ :=
  (ms.filter (is_player_match player_id)).map (player_score_in player_id)

/-- `np.var`: population variance.  Callers guard against the empty
list. -/
def npVar (xs : List ℚ) : ℚ :=
  if xs = [] then 0
  else ((xs.map (fun x => (x - xs.sum / (xs.length : ℚ)) ^ 2)).sum)
    / (xs.length : ℚ)

/-- `FeatureEngineer._calculate_recent_score_variance`. -/
def calculate_recent_score_variance (player_id : String)
    (ms : List MatchRec) : ℚ :=
  if ms.length < 2 then 0
  else if player_scores player_id ms = [] then 0
  else npVar (player_scores player_id ms)

/-- `FeatureEngineer._calculate_momentum`: recency-weighted win rate
minus the unweighted one. -/
def calculate_momentum (player_id : String) (ms : List MatchRec) : ℚ :=
  if ms.length < 2 then 0
  else
    let total_weight : ℚ :=
      ((List.range ms.length).map
        (fun i => ((ms.length - i : ℕ) : ℚ))).sum
    let weighted_wins : ℚ :=
      (ms.enum.map (fun pr =>
        if win_for player_id pr.2 then ((ms.length - pr.1 : ℕ) : ℚ)
        else 0)).sum
    if total_weight = 0 then 0
    else weighted_wins / total_weight
      - calculate_recent_win_rate player_id ms

/-- `FeatureEngineer._calculate_home_advantage`. -/
def calculate_home_advantage (ms : List MatchRec) : ℚ :=
  if ms = [] then 0
  else ((ms.filter (fun m =>
      decide (m.awayScore.getD 0 < m.homeScore.getD 0))).length : ℚ)
    / (ms.length : ℚ)

/-- `FeatureEngineer._calculate_player_consistency`: one minus the
normalized score variance (1 on zero variance). -/
def calculate_player_consistency (player_id : String)
    (ms : List MatchRec) : ℚ :=
  if (ms.filter (is_player_match player_id)).length < 2 then 0
  else if player_scores player_id ms = [] then 0
  else if npVar (player_scores player_id ms) = 0 then 1
  else 1 - min (npVar (player_scores player_id ms) / 100) 1

/-- `FeatureEngineer._extract_basic_features` (6 features). -/
def extract_basic_features (hp ap : Player) : List ℚ :=
  [hp.win_rate.getD 0, ap.win_rate.getD 0,
   hp.avg_score.getD 0, ap.avg_score.getD 0,
   hp.total_matches.getD 0, ap.total_matches.getD 0]

/-- `FeatureEngineer._extract_team_features` (12 features). -/
def extract_team_features (hp ap : Player)
    (home_team_id away_team_id : String) : List ℚ :=
  [get_team_win_rate hp home_team_id,
   get_team_win_rate ap away_team_id,
   get_team_avg_score hp home_team_id,
   get_team_avg_score ap away_team_id,
   get_team_matches hp home_team_id,
   get_team_matches ap away_team_id,
   get_team_matches hp home_team_id / max (hp.total_matches.getD 1) 1,
   get_team_matches ap away_team_id / max (ap.total_matches.getD 1) 1,
   get_team_win_rate hp home_team_id - hp.win_rate.getD 0,
   get_team_win_rate ap away_team_id - ap.win_rate.getD 0,
   get_team_avg_score hp home_team_id - hp.avg_score.getD 0,
   get_team_avg_score ap away_team_id - ap.avg_score.getD 0]

/-- `FeatureEngineer._extract_h2h_features` (8 features). -/
def extract_h2h_features (hp ap : Player)
    (home_player_id away_player_id : String) : List ℚ :=
  [get_h2h_win_rate hp away_player_id,
   get_h2h_win_rate ap home_player_id,
   get_h2h_matches hp away_player_id,
   get_h2h_matches ap home_player_id,
   get_avg_score_against hp away_player_id,
   get_avg_score_against ap home_player_id,
   get_h2h_win_rate hp away_player_id - get_h2h_win_rate ap home_player_id,
   get_avg_score_against hp away_player_id
     - get_avg_score_against ap home_player_id]

/-- `FeatureEngineer._extract_recent_form_features` (8 features). -/
def extract_recent_form_features (now : PyDate)
    (home_player_id away_player_id : String)
    (prev_matches : List MatchRec) (window_size : ℕ) : List ℚ :=
  [calculate_recent_win_rate home_player_id
     (get_player_recent_matches now home_player_id prev_matches window_size),
   calculate_recent_win_rate away_player_id
     (get_player_recent_matches now away_player_id prev_matches window_size),
   calculate_recent_avg_score home_player_id
     (get_player_recent_matches now home_player_id prev_matches window_size),
   calculate_recent_avg_score away_player_id
     (get_player_recent_matches now away_player_id prev_matches window_size),
   calculate_recent_score_variance home_player_id
     (get_player_recent_matches now home_player_id prev_matches window_size),
   calculate_recent_score_variance away_player_id
     (get_player_recent_matches now away_player_id prev_matches window_size),
   calculate_momentum home_player_id
     (get_player_recent_matches now home_player_id prev_matches window_size),
   calculate_momentum away_player_id
     (get_player_recent_matches now away_player_id prev_matches window_size)]

/-- `FeatureEngineer._extract_advanced_features` (9 features). -/
def extract_advanced_features (hp ap : Player)
    (home_team_id away_team_id home_player_id away_player_id : String)
    (prev_matches : List MatchRec) : List ℚ :=
  [hp.win_rate.getD 0 - ap.win_rate.getD 0,
   hp.avg_score.getD 0 - ap.avg_score.getD 0,
   hp.total_matches.getD 0 - ap.total_matches.getD 0,
   get_team_win_rate hp home_team_id - get_team_win_rate ap away_team_id,
   get_team_avg_score hp home_team_id
     - get_team_avg_score ap away_team_id,
   get_team_matches hp home_team_id - get_team_matches ap away_team_id,
   calculate_home_advantage prev_matches,
   calculate_player_consistency home_player_id prev_matches,
   calculate_player_consistency away_player_id prev_matches]

/-- `FeatureEngineer._extract_temporal_features` (3 features;
`prev_matches` is accepted but unused, as in the code). -/
def extract_temporal_features (match_date : PyDate)
    (prev_matches : List MatchRec) : List ℚ :=
  [(match_date.weekday : ℚ) / 6,
   (match_date.month : ℚ) / 12,
   if 5 ≤ match_date.weekday then 1 else 0]

/-- A player dict none of whose keys are set; stands in for the value of
a lookup that the eligibility filter has already guaranteed to exist. -/
def default_player : Player := ⟨none, none, none, [], []⟩

/-- The per-match loop body of `extract_features`: the concatenation of
the enabled feature blocks, in the fixed order. -/
def match_feature_row (cfg : FeatureConfig) (now : PyDate)
    (player_stats : PlayerStats) (all_matches : List MatchRec)
    (m : MatchRec) : List ℚ :=
  (if cfg.use_basic_features then
    extract_basic_features
      ((player_stats.lookup m.homePlayerId).getD default_player)
      ((player_stats.lookup m.awayPlayerId).getD default_player)
  else [])
  ++ (if cfg.use_team_features then
    extract_team_features
      ((player_stats.lookup m.homePlayerId).getD default_player)
      ((player_stats.lookup m.awayPlayerId).getD default_player)
      m.homeTeamId m.awayTeamId
  else [])
  ++ (if cfg.use_h2h_features then
    extract_h2h_features
      ((player_stats.lookup m.homePlayerId).getD default_player)
      ((player_stats.lookup m.awayPlayerId).getD default_player)
      m.homePlayerId m.awayPlayerId
  else [])
  ++ (if cfg.use_recent_form then
    extract_recent_form_features now m.homePlayerId m.awayPlayerId
      (get_previous_matches now all_matches m (parse_match_date now m))
      cfg.recent_matches_window
  else [])
  ++ (if cfg.use_advanced_features then
    extract_advanced_features
      ((player_stats.lookup m.homePlayerId).getD default_player)
      ((player_stats.lookup m.awayPlayerId).getD default_player)
      m.homeTeamId m.awayTeamId m.homePlayerId m.awayPlayerId
      (get_previous_matches now all_matches m (parse_match_date now m))
  else [])
  ++ (if cfg.use_temporal_features then
    extract_temporal_features (parse_match_date now m)
      (get_previous_matches now all_matches m (parse_match_date now m))
  else [])

/-- A match survives the skip checks of the extraction loop: both
scores present, both players known. -/
def eligible (player_stats : PlayerStats) (m : MatchRec) : Bool :=
  has_scores m && (player_stats.lookup m.homePlayerId).isSome
    && (player_stats.lookup m.awayPlayerId).isSome

/-- The labels returned beside the feature matrix. -/
inductive FELabels where
  | score (home_scores away_scores : List ℚ)
  | winner (labels : List ℚ)
  deriving DecidableEq, Repr

/-- `FeatureEngineer.extract_features`: the feature matrix over the
non-skipped matches, with score or winner labels. -/
def extract_features (cfg : FeatureConfig) (now : PyDate)
    (player_stats : PlayerStats) («matches» : List MatchRec)
    (for_score_prediction : Bool) : List (List ℚ) × FELabels :=
  ((«matches».filter (eligible player_stats)).map
      (match_feature_row cfg now player_stats «matches»),
   if for_score_prediction then
     FELabels.score
       ((«matches».filter (eligible player_stats)).map
         (fun m => m.homeScore.getD 0))
       ((«matches».filter (eligible player_stats)).map
         (fun m => m.awayScore.getD 0))
   else
     FELabels.winner
       ((«matches».filter (eligible player_stats)).map
         (fun m => if m.awayScore.getD 0 < m.homeScore.getD 0
           then 1 else 0)))

/-- The sum of the widths of the enabled blocks
(6 / 12 / 8 / 8 / 9 / 3). -/
def config_width (cfg : FeatureConfig) : ℕ :=
  (if cfg.use_basic_features then 6 else 0)
  + (if cfg.use_team_features then 12 else 0)
  + (if cfg.use_h2h_features then 8 else 0)
  + (if cfg.use_recent_form then 8 else 0)
  + (if cfg.use_advanced_features then 9 else 0)
  + (if cfg.use_temporal_features then 3 else 0)

/-- Every match in the list carries a date `strptime` accepts. -/
def has_parseable_date (m : MatchRec) : Bool :=
  match m.date with
  | some (some _) => true
  | some none => false
  | none =>
    match m.startTime with
    | some (some _) => true
    | _ => false

end Features

namespace Features

open Predict (Player PlayerStats TeamStats OppStats)

theorem extract_basic_features_length (hp ap : Player) :
    (extract_basic_features hp ap).length = 6 := rfl

theorem extract_team_features_length (hp ap : Player) (h a : String) :
    (extract_team_features hp ap h a).length = 12 := rfl

theorem extract_h2h_features_length (hp ap : Player) (h a : String) :
    (extract_h2h_features hp ap h a).length = 8 := rfl

theorem extract_recent_form_features_length (now : PyDate)
    (h a : String) (prev : List MatchRec) (w : ℕ) :
    (extract_recent_form_features now h a prev w).length = 8 := rfl

theorem extract_advanced_features_length (hp ap : Player)
    (ht at2 hi ai : String) (prev : List MatchRec) :
    (extract_advanced_features hp ap ht at2 hi ai prev).length = 9 := rfl

theorem extract_temporal_features_length (d : PyDate)
    (prev : List MatchRec) :
    (extract_temporal_features d prev).length = 3 := rfl

theorem match_feature_row_length (cfg : FeatureConfig) (now : PyDate)
    (player_stats : PlayerStats) (all_matches : List MatchRec)
    (m : MatchRec) :
    (match_feature_row cfg now player_stats all_matches m).length
      = config_width cfg := by
  unfold match_feature_row config_width
  simp only [List.length_append, apply_ite List.length,
    extract_basic_features_length, extract_team_features_length,
    extract_h2h_features_length, extract_recent_form_features_length,
    extract_advanced_features_length, extract_temporal_features_length,
    List.length_nil]

/-- C8: every feature vector produced by `extract_features` has length
equal to the sum of the widths of the enabled blocks
(6 / 12 / 8 / 8 / 9 / 3, concatenated in that fixed order). -/
theorem extract_features_row_length (cfg : FeatureConfig) (now : PyDate)
    (player_stats : PlayerStats) (ms : List MatchRec) (b : Bool)
    (row : List ℚ)
    (hrow : row ∈ (extract_features cfg now player_stats ms b).1) :
    row.length = config_width cfg := by
  have hrow2 : row ∈ (ms.filter (eligible player_stats)).map
      (match_feature_row cfg now player_stats ms) := hrow
  obtain ⟨m, _, rfl⟩ := List.mem_map.mp hrow2
  exact match_feature_row_length cfg now player_stats ms m

/-- Witness for C8: a full configuration on one eligible match gives a
vector of length 46. -/
theorem extract_features_row_length_witness :
    (match_feature_row ⟨true, true, true, true, true, true, 5⟩
        ⟨0, 0, 1⟩ [("h", default_player), ("a", default_player)]
        [⟨"h", "a", "t1", "t2", some 1, some 0, none, none⟩]
        ⟨"h", "a", "t1", "t2", some 1, some 0, none, none⟩).length
      = config_width ⟨true, true, true, true, true, true, 5⟩ :=
  extract_features_row_length ⟨true, true, true, true, true, true, 5⟩
    ⟨0, 0, 1⟩ [("h", default_player), ("a", default_player)]
    [⟨"h", "a", "t1", "t2", some 1, some 0, none, none⟩] true
    (match_feature_row ⟨true, true, true, true, true, true, 5⟩
      ⟨0, 0, 1⟩ [("h", default_player), ("a", default_player)]
      [⟨"h", "a", "t1", "t2", some 1, some 0, none, none⟩]
      ⟨"h", "a", "t1", "t2", some 1, some 0, none, none⟩)
    (List.mem_cons_self _ _)

end Features

namespace Features

open Predict (Player PlayerStats)

/-- C9 (counterexample): with only the temporal block enabled and a
single scored match carrying no date keys, `_parse_match_date` falls
back to `datetime.now()`, so two calls on identical snapshot, matches
and configuration — one at a Monday clock, one at a Saturday clock —
produce different feature matrices. -/
theorem extract_features_depends_on_clock :
    (extract_features ⟨false, false, false, false, false, true, 5⟩
        ⟨0, 0, 1⟩
        [("h", default_player), ("a", default_player)]
        [⟨"h", "a", "t1", "t2", some 1, some 0, none, none⟩] true).1
      ≠ (extract_features ⟨false, false, false, false, false, true, 5⟩
          ⟨0, 5, 1⟩
          [("h", default_player), ("a", default_player)]
          [⟨"h", "a", "t1", "t2", some 1, some 0, none, none⟩] true).1 := by
  have e1 : (extract_features ⟨false, false, false, false, false, true, 5⟩
      ⟨0, 0, 1⟩ [("h", default_player), ("a", default_player)]
      [⟨"h", "a", "t1", "t2", some 1, some 0, none, none⟩] true).1
      = [[((0 : ℕ) : ℚ) / 6, ((1 : ℕ) : ℚ) / 12, 0]] := rfl
  have e2 : (extract_features ⟨false, false, false, false, false, true, 5⟩
      ⟨0, 5, 1⟩ [("h", default_player), ("a", default_player)]
      [⟨"h", "a", "t1", "t2", some 1, some 0, none, none⟩] true).1
      = [[((5 : ℕ) : ℚ) / 6, ((1 : ℕ) : ℚ) / 12, 1]] := rfl
  rw [e1, e2]
  intro h
  have h3 := congrArg (fun l : List (List ℚ) => (l.headD []).getD 2 0) h
  norm_num at h3

theorem parse_match_date_congr (n1 n2 : PyDate) (m : MatchRec)
    (h : has_parseable_date m = true) :
    parse_match_date n1 m = parse_match_date n2 m := by
  rcases hd : m.date with _ | (_ | d)
  · rcases hs : m.startTime with _ | (_ | d)
    · simp [has_parseable_date, hd, hs] at h
    · simp [has_parseable_date, hd, hs] at h
    · simp [parse_match_date, hd, hs]
  · simp [has_parseable_date, hd] at h
  · simp [parse_match_date, hd]

theorem mem_insertByDateDesc (now : PyDate) (x a : MatchRec)
    (l : List MatchRec) :
    a ∈ insertByDateDesc now x l ↔ a = x ∨ a ∈ l := by
  induction l with
  | nil => simp [insertByDateDesc]
  | cons y ys ih =>
    unfold insertByDateDesc
    split
    · simp [List.mem_cons]
    · simp only [List.mem_cons, ih]
      tauto

theorem mem_sortByDateDesc (now : PyDate) (a : MatchRec)
    (l : List MatchRec) :
    a ∈ sortByDateDesc now l ↔ a ∈ l := by
  induction l with
  | nil => simp [sortByDateDesc]
  | cons x xs ih =>
    unfold sortByDateDesc
    rw [mem_insertByDateDesc, ih, List.mem_cons]

theorem insertByDateDesc_congr (n1 n2 : PyDate) (x : MatchRec)
    (l : List MatchRec)
    (hx : parse_match_date n1 x = parse_match_date n2 x)
    (hl : ∀ y ∈ l, parse_match_date n1 y = parse_match_date n2 y) :
    insertByDateDesc n1 x l = insertByDateDesc n2 x l := by
  induction l with
  | nil => rfl
  | cons y ys ih =>
    unfold insertByDateDesc
    rw [hx, hl y (List.mem_cons_self _ _)]
    split
    · rfl
    · rw [ih (fun z hz => hl z (List.mem_cons_of_mem _ hz))]

theorem sortByDateDesc_congr (n1 n2 : PyDate) (l : List MatchRec)
    (hl : ∀ y ∈ l, parse_match_date n1 y = parse_match_date n2 y) :
    sortByDateDesc n1 l = sortByDateDesc n2 l := by
  induction l with
  | nil => rfl
  | cons x xs ih =>
    unfold sortByDateDesc
    rw [ih (fun z hz => hl z (List.mem_cons_of_mem _ hz))]
    exact insertByDateDesc_congr n1 n2 x _
      (hl x (List.mem_cons_self _ _))
      (fun z hz => hl z (List.mem_cons_of_mem _
        ((mem_sortByDateDesc n2 z xs).mp hz)))

theorem get_player_recent_matches_congr (n1 n2 : PyDate) (pid : String)
    (ms : List MatchRec) (w : ℕ)
    (h : ∀ y ∈ ms, parse_match_date n1 y = parse_match_date n2 y) :
    get_player_recent_matches n1 pid ms w
      = get_player_recent_matches n2 pid ms w := by
  unfold get_player_recent_matches
  rw [sortByDateDesc_congr n1 n2 _
    (fun z hz => h z (List.mem_of_mem_filter hz))]

theorem get_previous_matches_congr (n1 n2 : PyDate)
    (all_matches : List MatchRec) (cur : MatchRec) (d : PyDate)
    (h : ∀ y ∈ all_matches,
      parse_match_date n1 y = parse_match_date n2 y) :
    get_previous_matches n1 all_matches cur d
      = get_previous_matches n2 all_matches cur d := by
  unfold get_previous_matches
  apply List.filter_congr
  intro a ha
  rw [h a ha]

theorem extract_recent_form_features_congr (n1 n2 : PyDate)
    (hid aid : String) (prev : List MatchRec) (w : ℕ)
    (h : ∀ y ∈ prev, parse_match_date n1 y = parse_match_date n2 y) :
    extract_recent_form_features n1 hid aid prev w
      = extract_recent_form_features n2 hid aid prev w := by
  unfold extract_recent_form_features
  rw [get_player_recent_matches_congr n1 n2 hid prev w h,
    get_player_recent_matches_congr n1 n2 aid prev w h]

theorem match_feature_row_congr (cfg : FeatureConfig) (n1 n2 : PyDate)
    (player_stats : PlayerStats) (all_matches : List MatchRec)
    (m : MatchRec) (hm : has_parseable_date m = true)
    (hall : ∀ y ∈ all_matches, has_parseable_date y = true) :
    match_feature_row cfg n1 player_stats all_matches m
      = match_feature_row cfg n2 player_stats all_matches m := by
  have hd := parse_match_date_congr n1 n2 m hm
  have hprev : get_previous_matches n1 all_matches m
      (parse_match_date n1 m)
      = get_previous_matches n2 all_matches m (parse_match_date n2 m) := by
    rw [hd]
    exact get_previous_matches_congr n1 n2 all_matches m _
      (fun y hy => parse_match_date_congr n1 n2 y (hall y hy))
  unfold match_feature_row
  rw [hprev, hd]
  rw [extract_recent_form_features_congr n1 n2 m.homePlayerId
    m.awayPlayerId
    (get_previous_matches n2 all_matches m (parse_match_date n2 m))
    cfg.recent_matches_window
    (fun y hy => parse_match_date_congr n1 n2 y
      (hall y (List.mem_of_mem_filter hy)))]

/-- C9 (amended): feature extraction is a pure function of snapshot,
matches and configuration — two calls at different clock values return
bit-identical results — provided every match carries a parseable date.
(When a date is missing or unparsable the output depends on the clock,
as the counterexample shows.) -/
theorem extract_features_deterministic (cfg : FeatureConfig)
    (n1 n2 : PyDate) (player_stats : PlayerStats)
    (ms : List MatchRec) (b : Bool)
    (h : ∀ m ∈ ms, has_parseable_date m = true) :
    extract_features cfg n1 player_stats ms b
      = extract_features cfg n2 player_stats ms b := by
  unfold extract_features
  congr 1
  apply List.map_congr_left
  intro m hm
  exact match_feature_row_congr cfg n1 n2 player_stats ms m
    (h m (List.mem_of_mem_filter hm)) h

/-- Witness for the amended C9: one match with a parsed date; the
Monday and Saturday clocks give the same output. -/
theorem extract_features_deterministic_witness :
    extract_features ⟨false, false, false, false, false, true, 5⟩
        ⟨0, 0, 1⟩ [("h", default_player), ("a", default_player)]
        [⟨"h", "a", "t1", "t2", some 1, some 0,
          some (some ⟨7, 2, 3⟩), none⟩] true
      = extract_features ⟨false, false, false, false, false, true, 5⟩
          ⟨0, 5, 1⟩ [("h", default_player), ("a", default_player)]
          [⟨"h", "a", "t1", "t2", some 1, some 0,
            some (some ⟨7, 2, 3⟩), none⟩] true :=
  extract_features_deterministic ⟨false, false, false, false, false, true, 5⟩
    ⟨0, 0, 1⟩ ⟨0, 5, 1⟩ [("h", default_player), ("a", default_player)]
    [⟨"h", "a", "t1", "t2", some 1, some 0,
      some (some ⟨7, 2, 3⟩), none⟩] true (by decide)

end Features
